import Mathlib

/-!
Verification of the Franktorio pressure-scanner core.

This file is a shallow embedding, in Lean 4, of the parts of the scanner
that the specification's claims talk about:

* `src/src/app/scanner/stalker.py`   — the log-file tailer (`Stalker`);
* `src/src/app/scanner/parser.py`    — the line parser and its module-level
  disconnect toggle;
* `src/src/app/scanner/log_finder.py`— log-file path resolution;
* `src/src/app/scanner/scanner.py`   — `Scanner.report_new_rooms`;
* `src/src/api/scanner.py`           — the backend API wrappers
  (`_request_session`, `room_encountered`, `RoomInfo`);
* `src/config/vars.py`               — `SessionConfig`;
* `src/src/api/websocket.py`         — `_connect_scanner_websocket`.

Modelling conventions:

* Python strings are Lean `String`s; character-level helpers
  (`str.lower`, `str.strip`, `str.split()`, substring containment via
  `in`) are embedded as executable functions over `List Char`.
* Files are modelled at line granularity: a file is its `List String` of
  raw lines, and a stream position (`seek`/`tell`) is the number of lines
  before it.  `readline` advances the position past exactly one line, so
  this representation preserves the ordering and monotonicity of the byte
  offsets in the source.
* Network effects are oracles: a `Backend` record gives the outcome of each
  HTTP call, and each embedded operation additionally returns the trace of
  backend calls it issued, so that claims about which calls happen can be
  stated.  A call that can raise in Python returns an `Option`, with `none`
  for the exception path.
-/

/-! ## Python string primitives -/

/-- Embedding of Python `str.strip()` on the character list: drop whitespace
from both ends. -/
def trimChars (l : List Char) : List Char :=
  ((l.dropWhile Char.isWhitespace).reverse.dropWhile Char.isWhitespace).reverse

/-- Embedding of Python `str.strip()`. -/
def pyStrip (s : String) : String := String.mk (trimChars s.toList)

/-- Embedding of Python `str.lower()` (character-wise lowering; the log
markers are ASCII). -/
def pyLower (s : String) : String := String.mk (s.toList.map Char.toLower)

/-- Embedding of Python `str.split()` with no argument: split on runs of
whitespace, discarding empty pieces. -/
def pyWords : List Char → List (List Char)
  | [] => []
  | c :: cs =>
    if c.isWhitespace then pyWords cs
    else (c :: cs.takeWhile (fun d => !d.isWhitespace)) ::
      pyWords (cs.dropWhile (fun d => !d.isWhitespace))
termination_by l => l.length
decreasing_by
  · simp [List.length_cons]
  · have h := (List.dropWhile_sublist (l := cs) (fun d => !d.isWhitespace)).length_le
    simp [List.length_cons]
    omega

/-- Embedding of Python `needle in hay` on strings: substring containment. -/
def containsSub (needle hay : List Char) : Bool :=
  hay.tails.any (fun t => needle.isPrefixOf t)

/-- A whitespace character is unchanged by `Char.toLower` (only basic latin
capitals move). -/
theorem toLower_eq_of_isWhitespace {c : Char} (h : c.isWhitespace = true) :
    c.toLower = c := by
  have : c = ' ' ∨ c = '\t' ∨ c = '\r' ∨ c = '\n' := by
    revert h
    simp [Char.isWhitespace]
    tauto
  rcases this with h | h | h | h <;> subst h <;> decide

/-- If some character of a list fails a predicate, `dropWhile` by that
predicate yields a nonempty list. -/
theorem dropWhile_ne_nil_of_exists {p : Char → Bool} {l : List Char}
    (h : ∃ c ∈ l, p c = false) : l.dropWhile p ≠ [] := by
  induction l with
  | nil => simp at h
  | cons a as ih =>
    rcases h with ⟨c, hc, hpc⟩
    rcases List.mem_cons.mp hc with rfl | hmem
    · simp [List.dropWhile, hpc]
    · by_cases hpa : p a
      · simpa [List.dropWhile, hpa] using ih ⟨c, hmem, hpc⟩
      · simp [List.dropWhile, hpa]

/-- A character list containing a non-whitespace character splits into at
least one word. -/
theorem pyWords_ne_nil {l : List Char}
    (h : ∃ c ∈ l, c.isWhitespace = false) : pyWords l ≠ [] := by
  induction l with
  | nil => simp at h
  | cons a as ih =>
    rcases h with ⟨c, hc, hcw⟩
    rcases List.mem_cons.mp hc with rfl | hmem
    · rw [pyWords, if_neg (by simp [hcw])]
      simp
    · by_cases hw : a.isWhitespace
      · rw [pyWords, if_pos hw]
        exact ih ⟨c, hmem, hcw⟩
      · rw [pyWords, if_neg hw]
        simp

/-- Membership in a substring: every character of a contained needle occurs
in the haystack. -/
theorem mem_of_containsSub {needle hay : List Char}
    (h : containsSub needle hay = true) {c : Char} (hc : c ∈ needle) : c ∈ hay := by
  unfold containsSub at h
  rcases List.any_eq_true.mp h with ⟨t, ht, hp⟩
  have hsub : needle <+: t := List.isPrefixOf_iff_prefix.mp hp
  have htail : t <:+ hay := (List.mem_tails t hay).mp ht
  exact htail.subset (hsub.subset hc)

/-! ## Tailer (`src/src/app/scanner/stalker.py`)

The file is its list of raw lines; `file_position` counts the lines already
consumed (a `seek`/`tell` position at a line boundary).  `MAX_READ_LINES`
and the counter updates mirror the source. -/

def MAX_READ_LINES : Nat := 50

structure Stalker where
  file_position : Nat
  total_reads : Nat
  total_lines_read : Nat
  empty_reads : Nat
deriving DecidableEq, Repr

/-- The freshly constructed `Stalker()` of the source: position and counters
all zero. -/
def Stalker.init : Stalker := ⟨0, 0, 0, 0⟩

/-- Embedding of `Stalker.observe_logfile_changes`: seek to `file_position`,
read up to `MAX_READ_LINES` lines stopping at EOF, advance the position,
return the stripped non-empty lines, and bump the diagnostic counters. -/
def observe_logfile_changes (file : List String) (s : Stalker) :
    List String × Stalker :=
  let new_lines := (file.drop s.file_position).take MAX_READ_LINES
  let filtered := (new_lines.map pyStrip).filter (fun l => l ≠ "")
  (filtered,
    { file_position := s.file_position + new_lines.length,
      total_reads := s.total_reads + 1,
      total_lines_read := s.total_lines_read + filtered.length,
      empty_reads := s.empty_reads + (if filtered.isEmpty then 1 else 0) })

/-- Repeated `read_new_lines()` calls on a fixed file: the per-call outputs
in order, and the final tailer state. -/
def runObserve (file : List String) : Nat → Stalker → List (List String) × Stalker
  | 0, s => ([], s)
  | n + 1, s =>
    let r := observe_logfile_changes file s
    let rest := runObserve file n r.2
    (r.1 :: rest.1, rest.2)

theorem observe_position_le (file : List String) (s : Stalker) :
    s.file_position ≤ (observe_logfile_changes file s).2.file_position := by
  simp [observe_logfile_changes]

theorem observe_position_le_length (file : List String) (s : Stalker)
    (h : s.file_position ≤ file.length) :
    (observe_logfile_changes file s).2.file_position ≤ file.length := by
  simp only [observe_logfile_changes]
  have h1 : ((file.drop s.file_position).take MAX_READ_LINES).length ≤
      (file.drop s.file_position).length := by
    rw [List.length_take]
    omega
  simp only [List.length_drop] at h1
  omega

/-- The lines returned by one call are exactly the stripped non-empty lines
of the slice of the file between the old and the new position. -/
theorem observe_output_eq_segment (file : List String) (s : Stalker) :
    (observe_logfile_changes file s).1 =
      (((file.take (observe_logfile_changes file s).2.file_position).drop
          s.file_position).map pyStrip).filter (fun l => l ≠ "") := by
  have key : ∀ (l : List String) (n : Nat), l.take ((l.take n).length) = l.take n := by
    intro l n
    rw [List.length_take]
    rcases Nat.le_total n l.length with h | h
    · rw [Nat.min_eq_left h]
    · rw [Nat.min_eq_right h, List.take_length, List.take_of_length_le h]
  simp only [observe_logfile_changes]
  rw [← List.take_drop, key]

theorem observe_output_length_le (file : List String) (s : Stalker) :
    (observe_logfile_changes file s).1.length ≤ MAX_READ_LINES := by
  simp only [observe_logfile_changes]
  have h1 := List.length_filter_le (fun l => decide (l ≠ ""))
      (((file.drop s.file_position).take MAX_READ_LINES).map pyStrip)
  have h2 : (((file.drop s.file_position).take MAX_READ_LINES).map pyStrip).length ≤
      MAX_READ_LINES := by
    rw [List.length_map, List.length_take]
    omega
  omega

theorem observe_output_shape (file : List String) (s : Stalker) :
    ∀ l ∈ (observe_logfile_changes file s).1,
      l ≠ "" ∧ ∃ raw ∈ file, l = pyStrip raw := by
  intro l hl
  simp only [observe_logfile_changes, List.mem_filter, List.mem_map] at hl
  rcases hl with ⟨⟨raw, hraw, rfl⟩, hne⟩
  refine ⟨by simpa using hne, raw, ?_, rfl⟩
  exact List.drop_subset _ _ (List.take_subset _ _ hraw)

theorem runObserve_position_mono (file : List String) (n : Nat) (s : Stalker) :
    s.file_position ≤ (runObserve file n s).2.file_position := by
  induction n generalizing s with
  | zero => exact Nat.le_refl _
  | succ n ih =>
    exact Nat.le_trans (observe_position_le file s)
      (ih (observe_logfile_changes file s).2)

theorem runObserve_position_le_length (file : List String) (n : Nat) (s : Stalker)
    (h : s.file_position ≤ file.length) :
    (runObserve file n s).2.file_position ≤ file.length := by
  induction n generalizing s with
  | zero => exact h
  | succ n ih => exact ih _ (observe_position_le_length file s h)

/-- Two adjacent slices of a list concatenate to the enclosing slice. -/
theorem segment_append (A : List String) {a b c : Nat} (hab : a ≤ b) (hbc : b ≤ c)
    (hbl : b ≤ A.length) :
    (A.take b).drop a ++ (A.take c).drop b = (A.take c).drop a := by
  have h1 : (A.take c).take b = A.take b := by
    rw [List.take_take, Nat.min_eq_left hbc]
  conv_rhs => rw [← List.take_append_drop b (A.take c), h1]
  rw [List.drop_append_of_le_length (by rw [List.length_take]; omega)]

/-- Reconstruction across repeated calls: the concatenation of every batch of
returned lines equals the stripped non-empty lines of the slice of the file
between the initial and the final position. -/
theorem runObserve_flatten (file : List String) (n : Nat) (s : Stalker)
    (h : s.file_position ≤ file.length) :
    ((runObserve file n s).1).flatten =
      (((file.take (runObserve file n s).2.file_position).drop
          s.file_position).map pyStrip).filter (fun l => l ≠ "") := by
  induction n generalizing s with
  | zero =>
    have hnil : (file.take s.file_position).drop s.file_position = [] := by
      apply List.drop_eq_nil_of_le
      rw [List.length_take]
      omega
    simp [runObserve, hnil]
  | succ n ih =>
    simp only [runObserve, List.flatten_cons]
    rw [observe_output_eq_segment,
      ih _ (observe_position_le_length file s h),
      ← List.filter_append, ← List.map_append,
      segment_append file (observe_position_le file s)
        (runObserve_position_mono file n _)
        (observe_position_le_length file s h)]

/-- C4 (amended). For any file: the position never decreases across calls;
each call returns at most `MAX_READ_LINES` (50) lines, each a stripped
non-empty line of the file; each call's output is drawn exactly from the
newly consumed slice of the file (so no line instance is ever re-returned);
and the concatenation of all outputs of repeated calls from a fresh tailer
equals the stripped non-empty lines of the file up to the final position —
reconstruction holds up to stripping and up to dropping whitespace-only
lines, not verbatim. -/
theorem c4_tailer (file : List String) (n : Nat) :
    (∀ s : Stalker,
        s.file_position ≤ (observe_logfile_changes file s).2.file_position) ∧
    (∀ s : Stalker, (observe_logfile_changes file s).1.length ≤ MAX_READ_LINES) ∧
    (∀ s : Stalker, ∀ l ∈ (observe_logfile_changes file s).1,
        l ≠ "" ∧ ∃ raw ∈ file, l = pyStrip raw) ∧
    (∀ s : Stalker,
        (observe_logfile_changes file s).1 =
          (((file.take (observe_logfile_changes file s).2.file_position).drop
              s.file_position).map pyStrip).filter (fun l => l ≠ "")) ∧
    ((runObserve file n Stalker.init).1.flatten =
      ((file.take (runObserve file n Stalker.init).2.file_position).map
          pyStrip).filter (fun l => l ≠ "")) := by
  refine ⟨observe_position_le file, observe_output_length_le file,
    observe_output_shape file, observe_output_eq_segment file, ?_⟩
  have h := runObserve_flatten file n Stalker.init (Nat.zero_le _)
  simpa [Stalker.init] using h

/-- C4, counterexample to the claim as stated: with the file holding the
lines `" a "`, `""`, `"b"`, a single call consumes all three lines but
returns `["a", "b"]`, whose concatenation is not the file's content up to
the last call (the blank line is dropped and the whitespace stripped). -/
theorem c4_counterexample :
    (runObserve [" a ", "", "b"] 1 Stalker.init).2.file_position = 3 ∧
    ((runObserve [" a ", "", "b"] 1 Stalker.init).1).flatten = ["a", "b"] ∧
    ((runObserve [" a ", "", "b"] 1 Stalker.init).1).flatten ≠
      ([" a ", "", "b"] : List String).take 3 := by
  refine ⟨by decide, by decide, by decide⟩

/-! ## Line parser (`src/src/app/scanner/parser.py`)

The three markers are the literal substrings matched by the source; matching
is done on the lowered line.  `_disconect_switch` is module-level state with
initial value `True`; the embedding threads it explicitly.  The geolocation
collaborator `get_server_location_from_log` is an oracle `geo`, returning
`none` for a falsy (absent) result.  A parse that would raise
`UnboundLocalError` in the extraction helper returns `none`. -/

def roomNameMarker : List Char := "room name".toList

def udmuxMarker : List Char := "udmux".toList

def disconnectMarker : List Char := "[flog::network] client:disconnect".toList

/-- Initial value of the module-level `_disconect_switch` global. -/
def disconectSwitchInit : Bool := true

structure ParseSummary where
  rooms : List String
  location : Option String
  disconnected : Bool
deriving DecidableEq, Repr

/-- The summary dict as initialised at the top of `parse_log_lines`. -/
def ParseSummary.init : ParseSummary := ⟨[], none, false⟩

/-- Python truthiness of the stored location value (`None` and `""` are
falsy). -/
def truthyOpt : Option String → Bool
  | none => false
  | some s => s ≠ ""

/-- Embedding of `_get_roomname_from_logline`: the last element of
`line.split()`; `none` models the `UnboundLocalError` raised when the split
is empty. -/
def _get_roomname_from_logline (line : String) : Option String :=
  ((pyWords line.toList).getLast?).map String.mk

/-- First `if` of the loop body: on a room-name marker line, append the
extracted room name (which in the source raises past the parser when the
line splits to nothing, modelled as `none`). -/
def roomStep (line : String) (sum : ParseSummary) : Option ParseSummary :=
  if containsSub roomNameMarker (pyLower line).toList then
    match _get_roomname_from_logline line with
    | some tok => some { sum with rooms := sum.rooms ++ [tok] }
    | none => none
  else some sum

/-- Second `if` of the loop body: on a `udmux` line with no location found
yet this batch, call the geolocation oracle on the lowered line and keep a
truthy result. -/
def locationStep (geo : String → Option String) (line : String)
    (sum : ParseSummary) : ParseSummary :=
  if containsSub udmuxMarker (pyLower line).toList && !(truthyOpt sum.location) then
    match geo (pyLower line) with
    | some loc => if loc ≠ "" then { sum with location := some loc } else sum
    | none => sum
  else sum

/-- Third `if` of the loop body: on a disconnect-marker line, flip the
switch; only a `true → false` flip reports a disconnect. -/
def discStep (line : String) (sum : ParseSummary) (sw : Bool) :
    ParseSummary × Bool :=
  if containsSub disconnectMarker (pyLower line).toList then
    if sw then ({ sum with disconnected := true }, false)
    else (sum, true)
  else (sum, sw)

/-- One iteration of the `for line in lines` loop of `parse_log_lines`:
the three substring checks on the lowered line, in source order, against
the running summary and the disconnect switch. -/
def parseLine (geo : String → Option String) (sum : ParseSummary) (sw : Bool)
    (line : String) : Option (ParseSummary × Bool) :=
  match roomStep line sum with
  | none => none
  | some sum1 => some (discStep line (locationStep geo line sum1) sw)

/-- The loop of `parse_log_lines` over its input lines. -/
def parseLines (geo : String → Option String) :
    List String → ParseSummary → Bool → Option (ParseSummary × Bool)
  | [], sum, sw => some (sum, sw)
  | line :: rest, sum, sw =>
    match parseLine geo sum sw line with
    | none => none
    | some r => parseLines geo rest r.1 r.2

/-- Embedding of `parse_log_lines`: fresh summary, explicit switch state in
and out (the source keeps it in the module-level global). -/
def parse_log_lines (geo : String → Option String) (lines : List String)
    (sw : Bool) : Option (ParseSummary × Bool) :=
  parseLines geo lines ParseSummary.init sw

/-- Consecutive `parse_log_lines` calls, threading the module-level switch
from call to call, collecting each call's summary. -/
def runParse (geo : String → Option String) :
    List (List String) → Bool → Option (List ParseSummary × Bool)
  | [], sw => some ([], sw)
  | b :: bs, sw =>
    match parse_log_lines geo b sw with
    | none => none
    | some r =>
      match runParse geo bs r.2 with
      | none => none
      | some rs => some (r.1 :: rs.1, rs.2)

/-- Does the lowered line contain the disconnect marker? -/
def hasDiscLine (line : String) : Bool :=
  containsSub disconnectMarker (pyLower line).toList

/-- Number of disconnect-marker lines in a batch. -/
def discCount (lines : List String) : Nat := lines.countP hasDiscLine

/-- Number of batches whose summary reported `disconnected = true`. -/
def signals (summaries : List ParseSummary) : Nat :=
  summaries.countP (fun s => s.disconnected)

/-- A line whose lowered form contains the room-name marker has at least one
whitespace-separated token, so the extraction helper cannot hit its
unbound-variable branch. -/
theorem roomname_of_marker {line : String}
    (h : containsSub roomNameMarker (pyLower line).toList = true) :
    ∃ w, (pyWords line.toList).getLast? = some w ∧
      _get_roomname_from_logline line = some (String.mk w) := by
  have hr : 'r' ∈ roomNameMarker := by decide
  have hmem : 'r' ∈ (pyLower line).toList := mem_of_containsSub h hr
  have heq : (pyLower line).toList = line.toList.map Char.toLower := rfl
  rw [heq] at hmem
  rcases List.mem_map.mp hmem with ⟨c, hc, hcl⟩
  have hnw : c.isWhitespace = false := by
    cases hw : c.isWhitespace
    · rfl
    · rw [toLower_eq_of_isWhitespace hw] at hcl
      subst hcl
      simp [Char.isWhitespace] at hw
  have hne : pyWords line.toList ≠ [] := pyWords_ne_nil ⟨c, hc, hnw⟩
  have hsome : (pyWords line.toList).getLast?.isSome := List.getLast?_isSome.mpr hne
  rcases Option.isSome_iff_exists.mp hsome with ⟨w, hw⟩
  refine ⟨w, hw, ?_⟩
  unfold _get_roomname_from_logline
  rw [hw]
  rfl

theorem roomStep_some (line : String) (sum : ParseSummary) :
    ∃ sum1, roomStep line sum = some sum1 ∧
      sum1.disconnected = sum.disconnected ∧ sum1.location = sum.location := by
  unfold roomStep
  by_cases h : containsSub roomNameMarker (pyLower line).toList = true
  · obtain ⟨w, _, hname⟩ := roomname_of_marker h
    rw [if_pos h, hname]
    exact ⟨_, rfl, rfl, rfl⟩
  · rw [if_neg h]
    exact ⟨sum, rfl, rfl, rfl⟩

theorem locationStep_disconnected (geo : String → Option String) (line : String)
    (sum : ParseSummary) :
    (locationStep geo line sum).disconnected = sum.disconnected ∧
    (locationStep geo line sum).rooms = sum.rooms := by
  unfold locationStep
  split <;> first
    | exact ⟨rfl, rfl⟩
    | (split <;> first
        | exact ⟨rfl, rfl⟩
        | (split <;> exact ⟨rfl, rfl⟩))

theorem discStep_spec (line : String) (sum : ParseSummary) (sw : Bool) :
    (discStep line sum sw).1.disconnected =
        (sum.disconnected || (hasDiscLine line && sw)) ∧
    (discStep line sum sw).2 = (if hasDiscLine line then !sw else sw) ∧
    (discStep line sum sw).1.rooms = sum.rooms := by
  unfold discStep hasDiscLine
  by_cases h : containsSub disconnectMarker (pyLower line).toList = true
  · rw [if_pos h, h]
    cases sw <;> simp
  · rw [if_neg h]
    have h' : containsSub disconnectMarker (pyLower line).toList = false := by
      revert h
      cases containsSub disconnectMarker (pyLower line).toList <;> simp
    rw [h']
    simp

/-- Every line parses to a successor state: the parse never raises, and its
effect on the disconnect switch and the batch `disconnected` flag is a
function of whether the line carries the disconnect marker. -/
theorem parseLine_spec (geo : String → Option String) (sum : ParseSummary)
    (sw : Bool) (line : String) :
    ∃ sum' sw', parseLine geo sum sw line = some (sum', sw') ∧
      sum'.disconnected = (sum.disconnected || (hasDiscLine line && sw)) ∧
      sw' = (if hasDiscLine line then !sw else sw) := by
  obtain ⟨sum1, h1, hd1, _⟩ := roomStep_some line sum
  obtain ⟨hd2, _⟩ := locationStep_disconnected geo line sum1
  obtain ⟨hd3, hs3, _⟩ := discStep_spec line (locationStep geo line sum1) sw
  refine ⟨(discStep line (locationStep geo line sum1) sw).1,
    (discStep line (locationStep geo line sum1) sw).2, ?_, ?_, hs3⟩
  · unfold parseLine
    rw [h1]
  · rw [hd3, hd2, hd1]

/-- Batch effect of the disconnect toggle: a batch never fails to parse, the
`disconnected` flag of the batch is set exactly when the running switch meets
at least one marker line or the batch holds at least two, and the switch
leaves the batch flipped iff the batch holds an odd number of marker lines. -/
theorem parseLines_disc (geo : String → Option String) (lines : List String) :
    ∀ (sum : ParseSummary) (sw : Bool), ∃ sum' sw',
      parseLines geo lines sum sw = some (sum', sw') ∧
      sum'.disconnected = (sum.disconnected ||
        (sw && decide (1 ≤ discCount lines)) || decide (2 ≤ discCount lines)) ∧
      sw' = (if discCount lines % 2 = 0 then sw else !sw) := by
  induction lines with
  | nil =>
    intro sum sw
    exact ⟨sum, sw, rfl, by simp [discCount], by simp [discCount]⟩
  | cons line rest ih =>
    intro sum sw
    obtain ⟨s1, w1, h1, hd1, hw1⟩ := parseLine_spec geo sum sw line
    obtain ⟨s2, w2, h2, hd2, hw2⟩ := ih s1 w1
    have hcount : discCount (line :: rest) =
        discCount rest + (if hasDiscLine line then 1 else 0) := by
      simp [discCount, List.countP_cons]
    refine ⟨s2, w2, ?_, ?_, ?_⟩
    · unfold parseLines
      rw [h1]
      exact h2
    · rw [hd2, hd1, hw1, hcount]
      cases hD : hasDiscLine line
      · simp
      · simp only [if_pos rfl, Bool.true_and, if_true]
        by_cases hk1 : 1 ≤ discCount rest
        · have e1 : 2 ≤ discCount rest + 1 := by omega
          have e2 : 1 ≤ discCount rest + 1 := by omega
          by_cases hk2 : 2 ≤ discCount rest <;>
            (simp [hk1, hk2, e1, e2]; try (cases sw <;> simp_all))
        · have e0 : discCount rest = 0 := by omega
          simp [e0]
    · rw [hw2, hw1, hcount]
      cases hD : hasDiscLine line
      · simp
      · simp only [if_true]
        rcases Nat.mod_two_eq_zero_or_one (discCount rest) with h | h
        · have h' : (discCount rest + 1) % 2 = 1 := by omega
          simp [h, h']
        · have h' : (discCount rest + 1) % 2 = 0 := by omega
          simp [h, h']

/-- Signal count of consecutive parses when every batch carries exactly one
disconnect-marker line: starting from switch state `sw`, the number of
batches reporting `disconnected = true` pairs the occurrences up. -/
theorem runParse_signals (geo : String → Option String)
    (batches : List (List String)) (h : ∀ b ∈ batches, discCount b = 1) :
    ∀ sw : Bool, ∃ ss swf, runParse geo batches sw = some (ss, swf) ∧
      signals ss = (if sw then (batches.length + 1) / 2
        else batches.length / 2) := by
  induction batches with
  | nil =>
    intro sw
    exact ⟨[], sw, rfl, by cases sw <;> simp [signals]⟩
  | cons b bs ih =>
    intro sw
    have hb : discCount b = 1 := h b (List.mem_cons_self b bs)
    obtain ⟨s1, w1, h1, hd1, hw1⟩ := parseLines_disc geo b ParseSummary.init sw
    rw [hb] at hd1 hw1
    have hd1' : s1.disconnected = sw := by
      simpa [ParseSummary.init] using hd1
    have hw1' : w1 = !sw := by
      simpa using hw1
    obtain ⟨ss, swf, h2, hsig⟩ :=
      ih (fun b' hb' => h b' (List.mem_cons_of_mem _ hb')) w1
    refine ⟨s1 :: ss, swf, ?_, ?_⟩
    · simp only [runParse, parse_log_lines, h1, h2]
    · rw [hw1'] at hsig
      simp only [signals, List.countP_cons] at *
      rw [hd1', hsig]
      cases sw <;> (simp; try omega)

/-- A room-name marker line appends exactly the last whitespace-separated
token of the original line to the summary's room list. -/
theorem parseLine_rooms_append (geo : String → Option String)
    (sum : ParseSummary) (sw : Bool) (line : String)
    (h : containsSub roomNameMarker (pyLower line).toList = true) :
    ∃ w sum' sw', (pyWords line.toList).getLast? = some w ∧
      _get_roomname_from_logline line = some (String.mk w) ∧
      parseLine geo sum sw line = some (sum', sw') ∧
      sum'.rooms = sum.rooms ++ [String.mk w] := by
  obtain ⟨w, hw, hname⟩ := roomname_of_marker h
  have hstep : roomStep line sum =
      some { sum with rooms := sum.rooms ++ [String.mk w] } := by
    unfold roomStep
    rw [if_pos h, hname]
  obtain ⟨_, hr2⟩ := locationStep_disconnected geo line
    { sum with rooms := sum.rooms ++ [String.mk w] }
  obtain ⟨_, _, hr3⟩ := discStep_spec line
    (locationStep geo line { sum with rooms := sum.rooms ++ [String.mk w] }) sw
  refine ⟨w,
    (discStep line
      (locationStep geo line { sum with rooms := sum.rooms ++ [String.mk w] }) sw).1,
    (discStep line
      (locationStep geo line { sum with rooms := sum.rooms ++ [String.mk w] }) sw).2,
    hw, hname, ?_, ?_⟩
  · unfold parseLine
    rw [hstep]
  · rw [hr3, hr2]

/-- C5 (confirmed). The disconnect toggle persists across `parse_log_lines`
calls: from the module's initial switch state, a run of batches each holding
exactly one disconnect-marker occurrence reports `disconnected = true` on
exactly one batch per pair of consecutive occurrences (so n occurrences give
the round-up of n/2 signals: two split occurrences give one, three give
two); and two marker occurrences inside a single call yield exactly that one
batch signalling, with the switch state restored. -/
theorem c5_disconnect_toggle (geo : String → Option String) :
    (∀ batches : List (List String), (∀ b ∈ batches, discCount b = 1) →
      ∃ ss swf, runParse geo batches disconectSwitchInit = some (ss, swf) ∧
        signals ss = (batches.length + 1) / 2) ∧
    (∀ (lines : List String) (sw : Bool), discCount lines = 2 →
      ∃ s sw', parse_log_lines geo lines sw = some (s, sw') ∧
        s.disconnected = true ∧ sw' = sw) := by
  constructor
  · intro batches h
    obtain ⟨ss, swf, h1, h2⟩ := runParse_signals geo batches h disconectSwitchInit
    exact ⟨ss, swf, h1, by simpa [disconectSwitchInit] using h2⟩
  · intro lines sw h
    obtain ⟨s, sw', h1, hd, hsw⟩ := parseLines_disc geo lines ParseSummary.init sw
    rw [h] at hd hsw
    refine ⟨s, sw', h1, ?_, ?_⟩
    · simpa [ParseSummary.init] using hd
    · simpa using hsw

/-- The disconnect-marker line used in the concrete scenarios. -/
def discLineEx : String := "[FLog::Network] Client:Disconnect"

/-- C5 witness: three single-marker batches from the initial switch state
yield exactly two `disconnected` signals, and one batch with two marker
lines yields one signal leaving the switch unchanged. -/
theorem c5_witness :
    (∀ b ∈ [[discLineEx], [discLineEx], [discLineEx]], discCount b = 1) ∧
    (∃ ss swf, runParse (fun _ => none) [[discLineEx], [discLineEx], [discLineEx]]
        disconectSwitchInit = some (ss, swf) ∧ signals ss = 2) ∧
    discCount [discLineEx, discLineEx] = 2 ∧
    (∃ s sw', parse_log_lines (fun _ => none) [discLineEx, discLineEx] true =
        some (s, sw') ∧ s.disconnected = true ∧ sw' = true) := by
  have hone : ∀ b ∈ [[discLineEx], [discLineEx], [discLineEx]],
      discCount b = 1 := by decide
  have h2 : discCount [discLineEx, discLineEx] = 2 := by decide
  refine ⟨hone, ?_, h2,
    (c5_disconnect_toggle (fun _ => none)).2 [discLineEx, discLineEx] true h2⟩
  obtain ⟨ss, swf, ha, hb⟩ :=
    (c5_disconnect_toggle (fun _ => none)).1 _ hone
  exact ⟨ss, swf, ha, by simpa using hb⟩

/-- C8 (confirmed). Parsing never raises: every call of `parse_log_lines`
returns a result, because on every line whose lowered form contains
`"room name"` the split of the original line is non-empty, so the
extraction helper's unbound-variable branch is unreachable, and the last
whitespace-separated token of the original line is appended to the rooms. -/
theorem c8_roomname_extraction (geo : String → Option String) :
    (∀ (lines : List String) (sw : Bool),
      ∃ r, parse_log_lines geo lines sw = some r) ∧
    (∀ (sum : ParseSummary) (sw : Bool) (line : String),
      containsSub roomNameMarker (pyLower line).toList = true →
      ∃ w sum' sw', (pyWords line.toList).getLast? = some w ∧
        _get_roomname_from_logline line = some (String.mk w) ∧
        parseLine geo sum sw line = some (sum', sw') ∧
        sum'.rooms = sum.rooms ++ [String.mk w]) := by
  constructor
  · intro lines sw
    obtain ⟨s, sw', h1, _, _⟩ := parseLines_disc geo lines ParseSummary.init sw
    exact ⟨(s, sw'), h1⟩
  · intro sum sw line h
    exact parseLine_rooms_append geo sum sw line h

/-- C8 witness: the concrete line `"Room Name MyRoom"` extracts `"MyRoom"`
without raising. -/
theorem c8_witness :
    containsSub roomNameMarker (pyLower "Room Name MyRoom").toList = true ∧
    (∃ w sum' sw', (pyWords "Room Name MyRoom".toList).getLast? = some w ∧
      _get_roomname_from_logline "Room Name MyRoom" = some (String.mk w) ∧
      parseLine (fun _ => none) ParseSummary.init true "Room Name MyRoom" =
        some (sum', sw') ∧
      sum'.rooms = ParseSummary.init.rooms ++ [String.mk w]) := by
  have h : containsSub roomNameMarker (pyLower "Room Name MyRoom").toList = true := by
    decide
  exact ⟨h, (c8_roomname_extraction (fun _ => none)).2 ParseSummary.init true
    "Room Name MyRoom" h⟩

/-! ## Log-file resolution (`src/src/app/scanner/log_finder.py`)

The file system is an oracle: `isFile`/`isDir` embed `os.path.isfile` /
`os.path.isdir`, and `latestIn` embeds `_get_latest_file_from_directory`
(the most-recently-modified file of a directory, `none` when the directory
does not exist or is empty).  The platform branch of the source picks a
conventional directory on Windows/macOS and a multi-directory search on
anything else; the search result is the oracle `linuxSearch`. -/

structure FS where
  isFile : String → Bool
  isDir : String → Bool
  latestIn : String → Option String

inductive Platform
  | windows
  | darwin
  | other
deriving DecidableEq, Repr

/-- Embedding of `get_latest_log_file_path`: `userLogPath` is the
`USER_LOG_PATH` configuration value (empty string when unset), `defaultDir`
the platform's conventional log directory, `linuxSearch` the result of
`_look_for_linux_logdir_path`. -/
def get_latest_log_file_path (userLogPath : String) (fs : FS) (p : Platform)
    (defaultDir : String) (linuxSearch : Option String) : Option String :=
  if userLogPath ≠ "" then
    if fs.isFile userLogPath then some userLogPath
    else if fs.isDir userLogPath then fs.latestIn userLogPath
    else none
  else
    match p with
    | Platform.other => linuxSearch
    | _ => fs.latestIn defaultDir

/-- C3 (amended). Resolution order of `locate()`: a file override is
returned verbatim; a directory override yields its most-recently-modified
file; an override that is set but neither an existing file nor a directory
yields `none` — it does NOT fall back to the platform default; the platform
default directory (or the Linux multi-directory search) is consulted only
when the override is unset.  The hypothesis says the real `os.path`
primitives reject the empty path. -/
theorem c3_locate_resolution (userLogPath : String) (fs : FS) (p : Platform)
    (defaultDir : String) (linuxSearch : Option String)
    (hwf : fs.isFile "" = false ∧ fs.isDir "" = false) :
    (fs.isFile userLogPath = true →
      get_latest_log_file_path userLogPath fs p defaultDir linuxSearch =
        some userLogPath) ∧
    (fs.isFile userLogPath = false → fs.isDir userLogPath = true →
      get_latest_log_file_path userLogPath fs p defaultDir linuxSearch =
        fs.latestIn userLogPath) ∧
    (userLogPath ≠ "" → fs.isFile userLogPath = false →
      fs.isDir userLogPath = false →
      get_latest_log_file_path userLogPath fs p defaultDir linuxSearch =
        none) ∧
    (userLogPath = "" → p ≠ Platform.other →
      get_latest_log_file_path userLogPath fs p defaultDir linuxSearch =
        fs.latestIn defaultDir) ∧
    (userLogPath = "" → p = Platform.other →
      get_latest_log_file_path userLogPath fs p defaultDir linuxSearch =
        linuxSearch) := by
  refine ⟨?_, ?_, ?_, ?_, ?_⟩
  · intro hf
    have hne : userLogPath ≠ "" := by
      intro he
      rw [he, hwf.1] at hf
      exact Bool.false_ne_true hf
    simp [get_latest_log_file_path, hne, hf]
  · intro hf hd
    have hne : userLogPath ≠ "" := by
      intro he
      rw [he, hwf.2] at hd
      exact Bool.false_ne_true hd
    simp [get_latest_log_file_path, hne, hf, hd]
  · intro hne hf hd
    simp [get_latest_log_file_path, hne, hf, hd]
  · intro he hp
    cases p with
    | windows => simp [get_latest_log_file_path, he]
    | darwin => simp [get_latest_log_file_path, he]
    | other => exact absurd rfl hp
  · intro he hp
    subst hp
    simp [get_latest_log_file_path, he]

/-- File-system oracle for the C3 scenarios: the override exists neither as
a file nor as a directory, while every directory lookup resolves to a
default log file. -/
def fsC3 : FS :=
  { isFile := fun _ => false
    isDir := fun _ => false
    latestIn := fun _ => some "defaultdir/latest.log" }

/-- C3, counterexample to the claim as stated: the override
`"missing-override"` is neither a file nor a directory, the platform default
directory does hold a most-recently-modified file, yet `locate()` returns
`none` instead of falling back to it. -/
theorem c3_counterexample :
    get_latest_log_file_path "missing-override" fsC3 Platform.windows
        "C:/localappdata/Roblox/logs" none = none ∧
    fsC3.latestIn "C:/localappdata/Roblox/logs" = some "defaultdir/latest.log" := by
  exact ⟨rfl, rfl⟩

/-- C3 witness: the amended resolution order evaluated on concrete inputs. -/
theorem c3_witness :
    get_latest_log_file_path "missing-override" fsC3 Platform.darwin
        "home/Library/Logs/Roblox" none = none ∧
    get_latest_log_file_path "" fsC3 Platform.darwin
        "home/Library/Logs/Roblox" none = some "defaultdir/latest.log" := by
  have h := c3_locate_resolution "missing-override" fsC3 Platform.darwin
    "home/Library/Logs/Roblox" none ⟨rfl, rfl⟩
  have h2 := c3_locate_resolution "" fsC3 Platform.darwin
    "home/Library/Logs/Roblox" none ⟨rfl, rfl⟩
  refine ⟨h.2.2.1 (by decide) rfl rfl, ?_⟩
  rw [h2.2.2.2.1 rfl (by decide)]
  rfl

/-! ## Session state (`src/config/vars.py`) and
`_request_session` (`src/src/api/scanner.py`)

The HTTP reply is modelled as `Option SessionResp`: `none` is the
`requests.RequestException`/`ValueError` path (network failure or body that
is not JSON); in a parsed body each key may be absent.  `data["session_id"]`
and `data["password"]` raise `KeyError` when absent — caught by the
source's handler — while `data.get("success", False)` defaults to false. -/

structure SessionConfig where
  session_id : Option String
  session_password : Option String
deriving DecidableEq, Repr

/-- The freshly constructed `SessionConfig()`: no credentials. -/
def SessionConfig.empty : SessionConfig := ⟨none, none⟩

/-- Embedding of `SessionConfig.set_session`. -/
def SessionConfig.set_session (_cfg : SessionConfig) (sid pw : String) :
    SessionConfig :=
  { session_id := some sid, session_password := some pw }

/-- Embedding of `SessionConfig.clear_session`. -/
def SessionConfig.clear_session (_cfg : SessionConfig) : SessionConfig :=
  { session_id := none, session_password := none }

/-- A parsed `/request_session` reply body; each field is a JSON key that
may be absent. -/
structure SessionResp where
  success : Option Bool
  session_id : Option String
  password : Option String
deriving DecidableEq, Repr

/-- Embedding of `_request_session`: returns the boolean result and the
session state after the call.  The source stores the credentials with
`set_session` BEFORE reading the success flag, and only the exception
handler (network error, malformed body, missing key) skips the store. -/
def _request_session (resp : Option SessionResp) (cfg : SessionConfig) :
    Bool × SessionConfig :=
  match resp with
  | none => (false, cfg)
  | some data =>
    match data.session_id, data.password with
    | some sid, some pw => (data.success.getD false, cfg.set_session sid pw)
    | _, _ => (false, cfg)

/-- C2 (amended). `request_session` stores the credential pair whenever the
reply parses and carries both the `session_id` and `password` keys —
regardless of the reported success flag — and returns the backend's success
flag (false when absent); on a network error, malformed body, or missing
credential key it returns false and leaves the session state untouched. -/
theorem c2_request_session (cfg : SessionConfig) :
    (∀ resp : Option SessionResp, resp = none →
      _request_session resp cfg = (false, cfg)) ∧
    (∀ (data : SessionResp) (sid pw : String),
      data.session_id = some sid → data.password = some pw →
      _request_session (some data) cfg =
        (data.success.getD false,
          { session_id := some sid, session_password := some pw })) ∧
    (∀ data : SessionResp,
      data.session_id = none ∨ data.password = none →
      _request_session (some data) cfg = (false, cfg)) := by
  refine ⟨?_, ?_, ?_⟩
  · intro resp h
    subst h
    rfl
  · intro data sid pw hs hp
    simp [_request_session, hs, hp, SessionConfig.set_session]
  · intro data h
    rcases h with h | h
    · simp [_request_session, h]
    · rcases hs : data.session_id with _ | sid
      · simp [_request_session, hs]
      · simp [_request_session, hs, h]

/-- C2, counterexample to the claim as stated: a parsed 200 reply with
`success: false` that still carries `session_id` and `password` stores the
credentials into the shared session state even though it returns false. -/
theorem c2_counterexample :
    _request_session
        (some { success := some false, session_id := some "sid-1",
                password := some "pw-1" })
        SessionConfig.empty =
      (false, { session_id := some "sid-1", session_password := some "pw-1" }) ∧
    ({ session_id := some "sid-1", session_password := some "pw-1" } :
        SessionConfig) ≠ SessionConfig.empty := by
  exact ⟨rfl, by decide⟩

/-- C2 witness: the amended behaviour evaluated on a success reply, a
success-false-with-credentials reply, and a reply missing the password. -/
theorem c2_witness :
    _request_session
        (some { success := some true, session_id := some "s", password := some "p" })
        SessionConfig.empty =
      (true, { session_id := some "s", session_password := some "p" }) ∧
    _request_session
        (some { success := some false, session_id := some "s", password := some "p" })
        SessionConfig.empty =
      (false, { session_id := some "s", session_password := some "p" }) ∧
    _request_session
        (some { success := some true, session_id := some "s", password := none })
        SessionConfig.empty = (false, SessionConfig.empty) := by
  have h := c2_request_session SessionConfig.empty
  refine ⟨?_, ?_, h.2.2 _ (Or.inr rfl)⟩
  · rw [h.2.1 _ "s" "p" rfl rfl]
    rfl
  · rw [h.2.1 _ "s" "p" rfl rfl]
    rfl

/-! ## Relay handshake (`src/src/api/websocket.py`)

`_connect_scanner_websocket` loops `for attempt in range(3)`, tries the
handshake, and on either caught exception sleeps `2 ** attempt` seconds
before the next iteration; the success/failure of each attempt is the
oracle `succeeds`.  The returned connection is modelled by the index of the
successful attempt; the event list records attempts and sleeps in order. -/

inductive WsEvent
  | attempt (i : Nat)
  | sleep (secs : Nat)
deriving DecidableEq, Repr

/-- The `for attempt in range(...)` loop of `_connect_scanner_websocket`:
`attempt` is the current index, the second argument the remaining
iterations. -/
def connectAttempts (succeeds : Nat → Bool) : Nat → Nat → Option Nat × List WsEvent
  | _, 0 => (none, [])
  | attempt, n + 1 =>
    if succeeds attempt then (some attempt, [WsEvent.attempt attempt])
    else
      let rest := connectAttempts succeeds (attempt + 1) n
      (rest.1, WsEvent.attempt attempt :: WsEvent.sleep (2 ^ attempt) :: rest.2)

/-- Embedding of `_connect_scanner_websocket`: three attempts starting at
index 0, returning `none` (stay disconnected) when all fail. -/
def _connect_scanner_websocket (succeeds : Nat → Bool) :
    Option Nat × List WsEvent :=
  connectAttempts succeeds 0 3

/-- C7 (confirmed). When every handshake attempt fails, the connect routine
makes exactly three attempts, sleeping 1 s, 2 s and 4 s after them, then
gives up and reports no connection. -/
theorem c7_relay_giveup (succeeds : Nat → Bool)
    (h : ∀ i, succeeds i = false) :
    _connect_scanner_websocket succeeds =
      (none, [WsEvent.attempt 0, WsEvent.sleep 1, WsEvent.attempt 1,
              WsEvent.sleep 2, WsEvent.attempt 2, WsEvent.sleep 4]) ∧
    ((_connect_scanner_websocket succeeds).2.countP
      (fun e => match e with | WsEvent.attempt _ => true | _ => false)) = 3 := by
  have ht : _connect_scanner_websocket succeeds =
      (none, [WsEvent.attempt 0, WsEvent.sleep 1, WsEvent.attempt 1,
              WsEvent.sleep 2, WsEvent.attempt 2, WsEvent.sleep 4]) := by
    simp [_connect_scanner_websocket, connectAttempts, h 0, h 1, h 2]
  refine ⟨ht, ?_⟩
  rw [ht]
  rfl

/-- C7 witness: the always-failing oracle evaluated concretely. -/
theorem c7_witness :
    _connect_scanner_websocket (fun _ => false) =
      (none, [WsEvent.attempt 0, WsEvent.sleep 1, WsEvent.attempt 1,
              WsEvent.sleep 2, WsEvent.attempt 2, WsEvent.sleep 4]) :=
  (c7_relay_giveup (fun _ => false) (fun _ => rfl)).1

/-! ## Reporting engine (`src/src/api/scanner.py` and
`Scanner.report_new_rooms` in `src/src/app/scanner/scanner.py`)

`RoomInfo` keeps the fields the engine-level claims can observe; the
remaining kwargs of the source constructor (`picture_urls`, `description`,
`roomtype`, `tags`, `doc_by_user_id`) are display-only defaults and carry no
control flow, and `last_updated` is a float outside the embedding.  The
backend is an oracle: `requestSession` the outcome of `_request_session`,
`logEncounter` the boolean of `_log_room_encounter`, `getRoomInfo` the
result of `_get_room_info` (`none` for its caught network-error path).
Every operation also returns the ordered list of backend calls it made. -/

structure RoomInfo where
  room_name : Option String
deriving DecidableEq, Repr

inductive ApiCall
  | requestSession
  | logEncounter (room : String)
  | getRoomInfo (room : String)
deriving DecidableEq, Repr

structure Backend where
  requestSession : Bool
  logEncounter : String → Bool
  getRoomInfo : String → Option RoomInfo

/-- Embedding of the async `room_encountered`: in logging mode it issues
both `_log_room_encounter` and `_get_room_info` (gathered concurrently and
joined); in silent mode only the room-info fetch runs and `logged` is the
literal `False`. -/
def room_encountered (B : Backend) (room_name : String) (log_event : Bool) :
    (Bool × Option RoomInfo) × List ApiCall :=
  if log_event then
    ((B.logEncounter room_name, B.getRoomInfo room_name),
      [ApiCall.logEncounter room_name, ApiCall.getRoomInfo room_name])
  else
    ((false, B.getRoomInfo room_name), [ApiCall.getRoomInfo room_name])

/-- The new-room branch of `report_new_rooms`: append to `latest_rooms`,
then `pop(0)` when the list exceeds 5. -/
def pushRoom (hist : List String) (room : String) : List String :=
  let h := hist ++ [room]
  if h.length > 5 then h.drop 1 else h

/-- The `for room in parsed_rooms` loop of `report_new_rooms`: `acc` is the
running `latest_room` (overwritten by the room-info result of every
iteration, even a `none` one). -/
def reportLoop (B : Backend) :
    Option RoomInfo → List String → List String →
      Option RoomInfo × List String × List ApiCall
  | acc, hist, [] => (acc, hist, [])
  | _, hist, room :: rest =>
    if room ∈ hist then
      let r := room_encountered B room false
      let next := reportLoop B r.1.2 hist rest
      (next.1, next.2.1, r.2 ++ next.2.2)
    else
      let hist1 := pushRoom hist room
      let r := room_encountered B room true
      let next := reportLoop B r.1.2 hist1 rest
      (next.1, next.2.1, r.2 ++ next.2.2)

/-- The scanner state touched by `report_new_rooms`. -/
structure ScannerState where
  has_session : Bool
  latest_rooms : List String
deriving DecidableEq, Repr

/-- Embedding of `Scanner.report_new_rooms`: request a session first only
when none is held and the batch is non-empty, aborting with `null` on
failure; then run the per-room loop and return the last room's info. -/
def report_new_rooms (B : Backend) (st : ScannerState) (rooms : List String) :
    Option RoomInfo × ScannerState × List ApiCall :=
  if !st.has_session && !rooms.isEmpty then
    if B.requestSession then
      let r := reportLoop B none st.latest_rooms rooms
      (r.1, { has_session := true, latest_rooms := r.2.1 },
        ApiCall.requestSession :: r.2.2)
    else
      (none, st, [ApiCall.requestSession])
  else
    let r := reportLoop B none st.latest_rooms rooms
    (r.1, { st with latest_rooms := r.2.1 }, r.2.2)

/-- C10 (confirmed). Calling `room_encountered` with `log_event = false`
(the duplicate-room silent path) issues only the room-info fetch — no
`/room_encountered` request at all — and reports `logged = false`; the same
holds for a whole `report_new_rooms` batch of a single already-seen room. -/
theorem c10_silent_mode (B : Backend) (room : String) :
    (room_encountered B room false).1.1 = false ∧
    (room_encountered B room false).2 = [ApiCall.getRoomInfo room] ∧
    (∀ r, ApiCall.logEncounter r ∉ (room_encountered B room false).2) ∧
    (∀ st : ScannerState, st.has_session = true → room ∈ st.latest_rooms →
      (report_new_rooms B st [room]).2.2 = [ApiCall.getRoomInfo room]) := by
  refine ⟨rfl, rfl, ?_, ?_⟩
  · intro r
    simp [room_encountered]
  · intro st hs hmem
    simp [report_new_rooms, reportLoop, room_encountered, hs, hmem]

/-- C10 witness: a concrete silent call and a concrete duplicate-room
batch. -/
theorem c10_witness :
    ((⟨true, ["Lobby"]⟩ : ScannerState).has_session = true ∧
      "Lobby" ∈ (⟨true, ["Lobby"]⟩ : ScannerState).latest_rooms) ∧
    (report_new_rooms
        { requestSession := true, logEncounter := fun _ => true,
          getRoomInfo := fun _ => none }
        ⟨true, ["Lobby"]⟩ ["Lobby"]).2.2 = [ApiCall.getRoomInfo "Lobby"] := by
  refine ⟨⟨rfl, by decide⟩, ?_⟩
  exact (c10_silent_mode
    { requestSession := true, logEncounter := fun _ => true,
      getRoomInfo := fun _ => none } "Lobby").2.2.2
    ⟨true, ["Lobby"]⟩ rfl (by decide)

/-- C9 (confirmed). With no session held, a non-empty batch and a failing
session request, `report_new_rooms` returns `null`, leaves the scanner state
(including `latest_rooms`) unchanged, and issues no per-room backend call:
the only backend call of the batch is the failed `/request_session`. -/
theorem c9_session_failure_aborts (B : Backend) (st : ScannerState)
    (rooms : List String) (h1 : st.has_session = false) (h2 : rooms ≠ [])
    (h3 : B.requestSession = false) :
    report_new_rooms B st rooms = (none, st, [ApiCall.requestSession]) := by
  have hne : rooms.isEmpty = false := by
    cases rooms with
    | nil => exact absurd rfl h2
    | cons a l => rfl
  simp [report_new_rooms, h1, h3, hne]

/-- C9 witness: a failing backend on a fresh scanner with one parsed room. -/
theorem c9_witness :
    report_new_rooms
        { requestSession := false, logEncounter := fun _ => true,
          getRoomInfo := fun _ => none }
        ⟨false, ["Old"]⟩ ["RoomX"] =
      (none, ⟨false, ["Old"]⟩, [ApiCall.requestSession]) :=
  c9_session_failure_aborts
    { requestSession := false, logEncounter := fun _ => true,
      getRoomInfo := fun _ => none }
    ⟨false, ["Old"]⟩ ["RoomX"] rfl (by decide) rfl

/-- C1 (amended). When the RoomInfo fetch succeeds but the encounter-logging
call fails for a new room, `report_new_rooms` performs no compensating
retry: it requests no fresh session and does not retry the logging call —
the batch's backend calls are exactly the one failed log write and the one
info fetch — and it still returns the RoomInfo with logging left failed. -/
theorem c1_no_compensating_retry (B : Backend) (st : ScannerState)
    (room : String) (info : RoomInfo) (hs : st.has_session = true)
    (hnew : room ∉ st.latest_rooms) (_hlog : B.logEncounter room = false)
    (hinfo : B.getRoomInfo room = some info) :
    report_new_rooms B st [room] =
      (some info, { st with latest_rooms := pushRoom st.latest_rooms room },
        [ApiCall.logEncounter room, ApiCall.getRoomInfo room]) ∧
    ApiCall.requestSession ∉ (report_new_rooms B st [room]).2.2 ∧
    (report_new_rooms B st [room]).2.2.countP
      (fun c => match c with | ApiCall.logEncounter _ => true | _ => false)
      = 1 := by
  have heq : report_new_rooms B st [room] =
      (some info, { st with latest_rooms := pushRoom st.latest_rooms room },
        [ApiCall.logEncounter room, ApiCall.getRoomInfo room]) := by
    simp [report_new_rooms, reportLoop, room_encountered, hs, hnew, hinfo]
  refine ⟨heq, ?_, ?_⟩
  · rw [heq]
    simp
  · rw [heq]
    rfl

/-- The room information returned by the C1 scenario's backend. -/
def roomInfoA : RoomInfo := { room_name := some "RoomA" }

/-- Backend for the C1 scenario: the info fetch always succeeds while the
encounter-logging call always fails. -/
def backendC1 : Backend :=
  { requestSession := true
    logEncounter := fun _ => false
    getRoomInfo := fun _ => some roomInfoA }

/-- C1, counterexample to the claim as stated: with a held session, a new
room whose info fetch succeeds and whose log write fails, the batch issues
no `/request_session` at all and only one (unretried) log write — not the
claimed fresh-session request plus retried logging call. -/
theorem c1_counterexample :
    backendC1.getRoomInfo "RoomA" = some roomInfoA ∧
    backendC1.logEncounter "RoomA" = false ∧
    (report_new_rooms backendC1 ⟨true, []⟩ ["RoomA"]).2.2 =
      [ApiCall.logEncounter "RoomA", ApiCall.getRoomInfo "RoomA"] ∧
    ApiCall.requestSession ∉ (report_new_rooms backendC1 ⟨true, []⟩ ["RoomA"]).2.2 ∧
    (report_new_rooms backendC1 ⟨true, []⟩ ["RoomA"]).2.2.countP
      (fun c => match c with | ApiCall.logEncounter _ => true | _ => false)
      = 1 ∧
    (report_new_rooms backendC1 ⟨true, []⟩ ["RoomA"]).1 = some roomInfoA := by
  exact ⟨rfl, rfl, rfl, by decide, rfl, rfl⟩

/-- C1 witness: the no-retry behaviour evaluated at the concrete failing
backend. -/
theorem c1_witness :
    report_new_rooms backendC1 ⟨true, []⟩ ["RoomA"] =
      (some roomInfoA,
        { has_session := true, latest_rooms := pushRoom [] "RoomA" },
        [ApiCall.logEncounter "RoomA", ApiCall.getRoomInfo "RoomA"]) :=
  (c1_no_compensating_retry backendC1 ⟨true, []⟩ "RoomA" roomInfoA rfl
    (List.not_mem_nil "RoomA") rfl rfl).1

theorem pushRoom_length_le (hist : List String) (room : String)
    (h : hist.length ≤ 5) : (pushRoom hist room).length ≤ 5 := by
  simp only [pushRoom]
  split
  · simp only [List.length_drop, List.length_append, List.length_cons,
      List.length_nil]
    omega
  · next h2 =>
    simp only [gt_iff_lt, not_lt, List.length_append, List.length_cons,
      List.length_nil] at h2
    simp only [List.length_append, List.length_cons, List.length_nil]
    omega

theorem reportLoop_length_le (B : Backend) (rooms : List String) :
    ∀ (acc : Option RoomInfo) (hist : List String), hist.length ≤ 5 →
      ((reportLoop B acc hist rooms).2.1).length ≤ 5 := by
  induction rooms with
  | nil =>
    intro acc hist h
    exact h
  | cons room rest ih =>
    intro acc hist h
    by_cases hmem : room ∈ hist
    · simp only [reportLoop, if_pos hmem]
      exact ih _ _ h
    · simp only [reportLoop, if_neg hmem]
      exact ih _ _ (pushRoom_length_le hist room h)

theorem pushRoom_eq_of_length_eq (hist : List String) (room : String)
    (h : hist.length = 5) : pushRoom hist room = hist.drop 1 ++ [room] := by
  simp only [pushRoom]
  rw [if_pos (by simp [List.length_append, h]),
    List.drop_append_of_le_length (by omega)]

/-- C6 (confirmed). `latest_rooms` holds at most 5 names after every
`report_new_rooms` call; once full, an insertion evicts the oldest entry
(FIFO, `pop(0)`); and after six distinct new rooms the first one has been
evicted, so reporting it again is treated as new and issues a logging-mode
encounter call. -/
theorem c6_history_fifo (B : Backend) :
    (∀ (st : ScannerState) (rooms : List String), st.latest_rooms.length ≤ 5 →
      ((report_new_rooms B st rooms).2.1.latest_rooms).length ≤ 5) ∧
    (∀ (hist : List String) (room : String), hist.length = 5 →
      pushRoom hist room = hist.drop 1 ++ [room]) ∧
    (∀ r1 r2 r3 r4 r5 r6 : String, [r1, r2, r3, r4, r5, r6].Nodup →
      (report_new_rooms B ⟨true, []⟩ [r1, r2, r3, r4, r5, r6]).2.1 =
        ⟨true, [r2, r3, r4, r5, r6]⟩ ∧
      r1 ∉ [r2, r3, r4, r5, r6] ∧
      (report_new_rooms B ⟨true, [r2, r3, r4, r5, r6]⟩ [r1]).2.2 =
        [ApiCall.logEncounter r1, ApiCall.getRoomInfo r1]) := by
  refine ⟨?_, pushRoom_eq_of_length_eq, ?_⟩
  · intro st rooms h
    unfold report_new_rooms
    split
    · split
      · exact reportLoop_length_le B rooms none st.latest_rooms h
      · exact h
    · exact reportLoop_length_le B rooms none st.latest_rooms h
  · intro r1 r2 r3 r4 r5 r6 hnd
    simp only [List.nodup_cons, List.mem_cons, List.mem_singleton,
      List.not_mem_nil, or_false, not_or, List.nodup_nil, and_true] at hnd
    obtain ⟨⟨h12, h13, h14, h15, h16⟩, ⟨h23, h24, h25, h26⟩,
      ⟨h34, h35, h36⟩, ⟨h45, h46⟩, h56, -⟩ := hnd
    have h21 : r2 ≠ r1 := Ne.symm h12
    have h31 : r3 ≠ r1 := Ne.symm h13
    have h32 : r3 ≠ r2 := Ne.symm h23
    have h41 : r4 ≠ r1 := Ne.symm h14
    have h42 : r4 ≠ r2 := Ne.symm h24
    have h43 : r4 ≠ r3 := Ne.symm h34
    have h51 : r5 ≠ r1 := Ne.symm h15
    have h52 : r5 ≠ r2 := Ne.symm h25
    have h53 : r5 ≠ r3 := Ne.symm h35
    have h54 : r5 ≠ r4 := Ne.symm h45
    have h61 : r6 ≠ r1 := Ne.symm h16
    have h62 : r6 ≠ r2 := Ne.symm h26
    have h63 : r6 ≠ r3 := Ne.symm h36
    have h64 : r6 ≠ r4 := Ne.symm h46
    have h65 : r6 ≠ r5 := Ne.symm h56
    refine ⟨?_, by simp [h12, h13, h14, h15, h16], ?_⟩
    · simp [report_new_rooms, reportLoop, pushRoom, room_encountered,
        h21, h31, h32, h41, h42, h43, h51, h52, h53, h54,
        h61, h62, h63, h64, h65]
    · simp [report_new_rooms, reportLoop, room_encountered,
        h12, h13, h14, h15, h16]

/-- Backend for the C6 scenario: every call succeeds and room info is
absent. -/
def backendC6 : Backend :=
  { requestSession := true
    logEncounter := fun _ => true
    getRoomInfo := fun _ => none }

/-- C6 witness: six concrete distinct rooms evict the first, which is then
re-reported in logging mode, and the history stays within its bound. -/
theorem c6_witness :
    (["a1", "a2", "a3", "a4", "a5", "a6"] : List String).Nodup ∧
    (report_new_rooms backendC6 ⟨true, []⟩
        ["a1", "a2", "a3", "a4", "a5", "a6"]).2.1 =
      ⟨true, ["a2", "a3", "a4", "a5", "a6"]⟩ ∧
    (report_new_rooms backendC6 ⟨true, ["a2", "a3", "a4", "a5", "a6"]⟩
        ["a1"]).2.2 =
      [ApiCall.logEncounter "a1", ApiCall.getRoomInfo "a1"] ∧
    ((report_new_rooms backendC6 ⟨true, []⟩
        ["a1", "a2", "a3", "a4", "a5", "a6"]).2.1.latest_rooms).length ≤ 5 := by
  have hnd : (["a1", "a2", "a3", "a4", "a5", "a6"] : List String).Nodup := by
    decide
  have h := (c6_history_fifo backendC6).2.2 "a1" "a2" "a3" "a4" "a5" "a6" hnd
  have hlen := (c6_history_fifo backendC6).1 ⟨true, []⟩
    ["a1", "a2", "a3", "a4", "a5", "a6"] (by decide)
  exact ⟨hnd, h.1, h.2.2, hlen⟩
